import Mathlib

/-!
Verification of the `katago` engine-process multiplexer (package
`github.com/xyproto/katago`, file `katago.go`).

The Go code drives an external analysis engine over newline-delimited JSON:
`Analyze` marshals every request to the child's stdin, then reads stdout
lines into a `map[string]AnalysisResponse` keyed by the reply's `id` until
the map holds as many entries as there are requests, and finally emits the
responses in request order by map lookup.  `Close` closes the child's stdin
and then waits for process exit.

The embedding below models:
  * the request/response structures (`float64` fields are represented by
    `Rat`: the source never performs floating-point arithmetic on them,
    it only passes JSON decimal literals through);
  * `encoding/json` behaviour for these struct types, at the granularity
    of a parsed JSON value (a stdout line either parses as a JSON value or
    is rejected by the decoder as malformed);
  * the Go `map[string]AnalysisResponse` as an association list with
    insert-or-replace, so that `len` is the number of distinct keys;
  * the session state threaded explicitly: the caller's request slice,
    the lines written to the child's stdin, the remaining stdout stream,
    and the stdin-closed / wait-called process bookkeeping used by `Close`.
-/

namespace Katago

/-- A JSON value, as produced by parsing one stdout line. -/
inductive JsonVal where
  | null
  | bool (b : Bool)
  | num (q : Rat)
  | str (s : String)
  | arr (elems : List JsonVal)
  | obj (fields : List (String × JsonVal))

/-- Mirrors Go struct `AnalysisRequest` (field `Komi float64` as `Rat`;
`[2]string` entries as pairs). -/
structure AnalysisRequest where
  id : String
  initialStones : List (String × String)
  moves : List (String × String)
  rules : String
  komi : Rat
  boardXSize : Int
  boardYSize : Int
  maxVisits : Int
  analyzeTurns : List Int
deriving DecidableEq, Repr

/-- Mirrors Go struct `MoveInfoExt` (`Winrate float64` as `Rat`). -/
structure MoveInfoExt where
  move : String
  winrate : Rat
deriving DecidableEq, Repr

/-- Mirrors Go struct `AnalysisResponse`. -/
structure AnalysisResponse where
  id : String
  moveInfos : List MoveInfoExt
deriving DecidableEq, Repr

/-- The Go zero value of `MoveInfoExt`, as produced by `var` declarations
and by `json.Unmarshal` for absent fields. -/
def zeroMoveInfo : MoveInfoExt := { move := "", winrate := 0 }

/-- The Go zero value of `AnalysisResponse` (a `nil` slice is identified
with the empty list). -/
def zeroResponse : AnalysisResponse := { id := "", moveInfos := [] }

/-- Marshalling of one `[2]string` entry, as `encoding/json` renders it. -/
def marshalPair (p : String × String) : JsonVal :=
  JsonVal.arr [JsonVal.str p.1, JsonVal.str p.2]

/-- Mirrors `json.Marshal(request)` for `AnalysisRequest`: fields appear in
struct order; `initialStones` and `maxVisits` carry `omitempty` and are
dropped at their zero values.  (`json.Marshal` cannot fail on this struct
type, so the model is total; a `nil` slice in Go would render as JSON
`null`, which a `List`-based model identifies with the empty array — the
distinction is never observed by this package.) -/
def marshalRequest (r : AnalysisRequest) : JsonVal :=
  JsonVal.obj
    ([("id", JsonVal.str r.id)]
     ++ (if r.initialStones.isEmpty then []
         else [("initialStones", JsonVal.arr (r.initialStones.map marshalPair))])
     ++ [("moves", JsonVal.arr (r.moves.map marshalPair)),
         ("rules", JsonVal.str r.rules),
         ("komi", JsonVal.num r.komi),
         ("boardXSize", JsonVal.num (r.boardXSize : Rat)),
         ("boardYSize", JsonVal.num (r.boardYSize : Rat))]
     ++ (if r.maxVisits == 0 then []
         else [("maxVisits", JsonVal.num (r.maxVisits : Rat))])
     ++ [("analyzeTurns", JsonVal.arr (r.analyzeTurns.map (fun n => JsonVal.num (n : Rat))))])

/-- Error outcomes of `json.Unmarshal`: a line that is not valid JSON at
all (`malformed`), or valid JSON whose shape does not fit the target
struct (`typeMismatch`, Go's `UnmarshalTypeError`; the decoder keeps
going but still reports a non-nil error, which is all `Analyze`
observes). -/
inductive UnmarshalErr where
  | malformed
  | typeMismatch
deriving DecidableEq, Repr

/-- Go key matching for struct fields: an incoming object key is accepted
for a field on an exact or ASCII-case-insensitive match
(`strings.EqualFold`); keys are processed in order, so a later matching
key overwrites an earlier one. -/
def keyFold (k target : String) : Bool :=
  k.data.map Char.toLower == target.data.map Char.toLower

/-- Unmarshalling the fields of one `moveInfos` element into
`MoveInfoExt`, key by key, mirroring `encoding/json`: unknown keys are
ignored, `null` leaves the field untouched, a shape mismatch is an
error. -/
def foldMoveFields (mi : MoveInfoExt) : List (String × JsonVal) → Except UnmarshalErr MoveInfoExt
  | [] => Except.ok mi
  | (k, v) :: rest =>
    if keyFold k "move" then
      match v with
      | JsonVal.str s => foldMoveFields { mi with move := s } rest
      | JsonVal.null => foldMoveFields mi rest
      | _ => Except.error UnmarshalErr.typeMismatch
    else if keyFold k "winrate" then
      match v with
      | JsonVal.num q => foldMoveFields { mi with winrate := q } rest
      | JsonVal.null => foldMoveFields mi rest
      | _ => Except.error UnmarshalErr.typeMismatch
    else foldMoveFields mi rest

/-- `json.Unmarshal` of one JSON value into `MoveInfoExt`: `null` is a
no-op on the zero value, an object is decoded field by field, anything
else is a type error. -/
def unmarshalMoveInfo : JsonVal → Except UnmarshalErr MoveInfoExt
  | JsonVal.null => Except.ok zeroMoveInfo
  | JsonVal.obj fs => foldMoveFields zeroMoveInfo fs
  | _ => Except.error UnmarshalErr.typeMismatch

/-- Unmarshalling the fields of a reply object into `AnalysisResponse`,
key by key: `id` takes a JSON string, `moveInfos` takes a JSON array of
move-info objects (`null` sets the slice to nil, i.e. `[]`), unknown keys
are ignored.  An absent `id` key simply leaves `id` at its zero value
`""` — `encoding/json` reports no error for missing fields. -/
def foldRespFields (r : AnalysisResponse) : List (String × JsonVal) → Except UnmarshalErr AnalysisResponse
  | [] => Except.ok r
  | (k, v) :: rest =>
    if keyFold k "id" then
      match v with
      | JsonVal.str s => foldRespFields { r with id := s } rest
      | JsonVal.null => foldRespFields r rest
      | _ => Except.error UnmarshalErr.typeMismatch
    else if keyFold k "moveInfos" then
      match v with
      | JsonVal.arr xs =>
        match xs.mapM unmarshalMoveInfo with
        | Except.ok mis => foldRespFields { r with moveInfos := mis } rest
        | Except.error e => Except.error e
      | JsonVal.null => foldRespFields { r with moveInfos := [] } rest
      | _ => Except.error UnmarshalErr.typeMismatch
    else foldRespFields r rest

/-- `json.Unmarshal` of one parsed line into a fresh
`AnalysisResponse` (the source declares `var response AnalysisResponse`
inside the loop, so decoding always starts from the zero value).  A JSON
`null` is accepted and leaves the zero value; any non-object other than
`null` is a type error. -/
def unmarshalResponse : JsonVal → Except UnmarshalErr AnalysisResponse
  | JsonVal.null => Except.ok zeroResponse
  | JsonVal.obj fs => foldRespFields zeroResponse fs
  | _ => Except.error UnmarshalErr.typeMismatch

/-- One line of the child's stdout, classified at the `encoding/json`
boundary: either it parses as a JSON value, or the decoder rejects it as
malformed (Go `SyntaxError`). -/
inductive Line where
  | json (j : JsonVal)
  | garbage (s : String)

/-- The decode step the read loop applies to one stdout line:
`json.Unmarshal([]byte(responseJSON), &response)`. -/
def unmarshalLine : Line → Except UnmarshalErr AnalysisResponse
  | Line.json j => unmarshalResponse j
  | Line.garbage _ => Except.error UnmarshalErr.malformed

/-- Error outcomes of `Analyze`: `readErr` models
`k.stdout.ReadString` failing (end of stream / broken pipe),
`unmarshalFailed` wraps a decode failure on one line.  (`json.Marshal`
cannot fail on `AnalysisRequest`, so the source's marshal-error branch is
unreachable and has no constructor here.) -/
inductive AnalyzeErr where
  | readErr
  | unmarshalFailed (e : UnmarshalErr)
deriving DecidableEq, Repr

/-- The Go `map[string]AnalysisResponse`, refined as an association list
whose keys stay pairwise distinct because insertion replaces an existing
key.  The source only uses `len`, assignment and lookup on the map, so
iteration order is never observed. -/
abbrev RespMap := List (String × AnalysisResponse)

/-- Whether the map already holds key `k`. -/
def RespMap.containsKey (m : RespMap) (k : String) : Bool :=
  m.any (fun p => p.1 == k)

/-- `responseMap[response.ID] = response`: replace the entry if the key
is present, otherwise add it; `List.length` of the result is Go's
`len(responseMap)`. -/
def RespMap.insert (m : RespMap) (k : String) (v : AnalysisResponse) : RespMap :=
  if m.containsKey k then m.map (fun p => if p.1 == k then (k, v) else p)
  else m ++ [(k, v)]

/-- `responseMap[request.ID]`: map lookup, yielding the zero value when
the key is absent, exactly as a Go map read does. -/
def RespMap.find (m : RespMap) (k : String) : AnalysisResponse :=
  match m.lookup k with
  | some v => v
  | none => zeroResponse

/-- Event trace entries for the shutdown path, recording the order in
which `Close` touches the child process. -/
inductive CloseEvent where
  | closeStdin
  | waitProcess
deriving DecidableEq, Repr

/-- Error outcomes of `Close`: the wrapped stdin-close failure
(`fmt.Errorf("failed to close KataGo stdin: ...")` — a branch the source
contains but that can never fire, because the `closeOnce` wrapper that
`cmd.StdinPipe` puts around the pipe never returns an error), `cmd.Wait`
called a second time (`exec: Wait was already called`), or the child
exiting unsuccessfully. -/
inductive CloseErr where
  | stdinCloseFailed
  | waitAlreadyCalled
  | exitFailure
deriving DecidableEq, Repr

/-- The session state threaded through the embedded operations: the
caller's request slice, the lines so far written to the child's stdin,
the remaining stdout stream, and the process bookkeeping `Close` acts
on (`exitOk` records whether `cmd.Wait` reports a clean exit the first
time it is called). -/
structure SessState where
  reqs : List AnalysisRequest
  stdinBuf : List JsonVal
  stdout : List Line
  stdinClosed : Bool
  waitCalled : Bool
  exitOk : Bool
  events : List CloseEvent

/-- The read half of `Analyze`: `for len(responseMap) < len(requests)`
read one line, unmarshal it, and store it under its `id`; any read or
decode failure returns immediately with `nil` responses.  Returns the
final map (or the error) together with the unread remainder of the
stdout stream.  (The source checks the loop condition before each read;
here the condition is checked in each branch of the structural recursion
on the stream, which keeps the same check-before-read order.) -/
def readLoop (target : Nat) (m : RespMap) (stdout : List Line) :
    Except AnalyzeErr RespMap × List Line :=
  match stdout with
  | [] =>
    if target ≤ m.length then (Except.ok m, [])
    else (Except.error AnalyzeErr.readErr, [])
  | l :: rest =>
    if target ≤ m.length then (Except.ok m, l :: rest)
    else
      match unmarshalLine l with
      | Except.error e => (Except.error (AnalyzeErr.unmarshalFailed e), rest)
      | Except.ok r => readLoop target (RespMap.insert m r.id r) rest

/-- `(*KataGo).Analyze`: marshal and write every request to stdin (write
errors from `fmt.Fprintf` are ignored by the source), then run the read
loop until the response map holds `len(requests)` entries, then emit
`responseMap[request.ID]` for each request in the order the requests
were given. -/
def Analyze (s : SessState) : Except AnalyzeErr (List AnalysisResponse) × SessState :=
  match readLoop s.reqs.length [] s.stdout with
  | (Except.error e, rest) =>
    (Except.error e,
     { s with stdinBuf := s.stdinBuf ++ s.reqs.map marshalRequest, stdout := rest })
  | (Except.ok m, rest) =>
    (Except.ok (s.reqs.map (fun q => RespMap.find m q.id)),
     { s with stdinBuf := s.stdinBuf ++ s.reqs.map marshalRequest, stdout := rest })

/-- `k.stdin.Close()`: `cmd.StdinPipe` hands out the pipe's write end
wrapped in an `os/exec` `closeOnce`, whose first `Close` closes the pipe
and caches the result — `nil` for an `os.Pipe` write end — and whose
every later `Close` returns that cached `nil` without doing anything.
So the operation never fails; it closes the write side on first use and
is a no-op afterwards.  The call is recorded in the event trace. -/
def stdinCloseOp (s : SessState) : Except Unit Unit × SessState :=
  (Except.ok (), { s with stdinClosed := true, events := s.events ++ [CloseEvent.closeStdin] })

/-- `k.cmd.Wait()`: waits for process exit (the call takes no deadline —
there is no timeout parameter to model), errors if `Wait` was already
called, and otherwise reports the child's exit status. -/
def waitOp (s : SessState) : Except CloseErr Unit × SessState :=
  if s.waitCalled then
    (Except.error CloseErr.waitAlreadyCalled, { s with events := s.events ++ [CloseEvent.waitProcess] })
  else
    ((if s.exitOk then Except.ok () else Except.error CloseErr.exitFailure),
     { s with waitCalled := true, events := s.events ++ [CloseEvent.waitProcess] })

/-- `(*KataGo).Close`: close the child's stdin; on failure return the
wrapped error without waiting, otherwise return the result of
`cmd.Wait()`. -/
def Close (s : SessState) : Except CloseErr Unit × SessState :=
  match stdinCloseOp s with
  | (Except.error _, s1) => (Except.error CloseErr.stdinCloseFailed, s1)
  | (Except.ok _, s1) => waitOp s1

/-- The map obtained by storing each reply of `rs`, in order, under its
id — the accumulated effect of the read loop's assignments. -/
def insertAll (m : RespMap) (rs : List AnalysisResponse) : RespMap :=
  rs.foldl (fun acc r => acc.insert r.id r) m

/-- A minimal well-formed request with the given id. -/
def reqWith (i : String) : AnalysisRequest :=
  { id := i, initialStones := [], moves := [], rules := "tromp-taylor", komi := 7,
    boardXSize := 19, boardYSize := 19, maxVisits := 0, analyzeTurns := [] }

/-- A well-formed reply line carrying the given id and no move infos. -/
def replyLine (i : String) : Line :=
  Line.json (JsonVal.obj [("id", JsonVal.str i), ("moveInfos", JsonVal.arr [])])

/-- The decoded form of `replyLine i`. -/
def replyOf (i : String) : AnalysisResponse := { id := i, moveInfos := [] }

/-- A freshly opened session holding the given batch and stdout stream:
stdin still open, the process not yet waited on, a clean exit status. -/
def baseState (reqs : List AnalysisRequest) (stdout : List Line) : SessState :=
  { reqs := reqs, stdinBuf := [], stdout := stdout, stdinClosed := false,
    waitCalled := false, exitOk := true, events := [] }

/-- A freshly opened idle session, for exercising the shutdown path. -/
def openSession : SessState := baseState [] []

/-! Unfolding lemmas for the read loop (one per branch of the source's
`for` loop). -/

theorem readLoop_stop (target : Nat) (m : RespMap) (stdout : List Line)
    (h : target ≤ m.length) : readLoop target m stdout = (Except.ok m, stdout) := by
  cases stdout <;> simp [readLoop, h]

theorem readLoop_nil (target : Nat) (m : RespMap) (h : ¬ target ≤ m.length) :
    readLoop target m [] = (Except.error AnalyzeErr.readErr, []) := by
  simp [readLoop, h]

theorem readLoop_cons_ok (target : Nat) (m : RespMap) (l : Line) (rest : List Line)
    (r : AnalysisResponse) (h : ¬ target ≤ m.length) (hl : unmarshalLine l = Except.ok r) :
    readLoop target m (l :: rest) = readLoop target (RespMap.insert m r.id r) rest := by
  simp [readLoop, h, hl]

theorem readLoop_cons_err (target : Nat) (m : RespMap) (l : Line) (rest : List Line)
    (e : UnmarshalErr) (h : ¬ target ≤ m.length) (hl : unmarshalLine l = Except.error e) :
    readLoop target m (l :: rest) = (Except.error (AnalyzeErr.unmarshalFailed e), rest) := by
  simp [readLoop, h, hl]

/-! Association-list facts mirroring the Go map operations. -/

theorem RespMap.insert_fresh (m : RespMap) (k : String) (v : AnalysisResponse)
    (h : m.containsKey k = false) : m.insert k v = m ++ [(k, v)] := by
  simp [RespMap.insert, h]

theorem RespMap.containsKey_append_single (m : RespMap) (k k2 : String) (v : AnalysisResponse) :
    RespMap.containsKey (m ++ [(k, v)]) k2 = (RespMap.containsKey m k2 || (k == k2)) := by
  simp [RespMap.containsKey]

theorem insertAll_eq_append (rs : List AnalysisResponse) (m : RespMap)
    (hfresh : ∀ r ∈ rs, m.containsKey r.id = false)
    (hnodup : (rs.map (fun r => r.id)).Nodup) :
    insertAll m rs = m ++ rs.map (fun r => (r.id, r)) := by
  induction rs generalizing m with
  | nil => simp [insertAll]
  | cons r rest ih =>
    have hnd := hnodup
    rw [List.map_cons, List.nodup_cons] at hnd
    have hfr : m.containsKey r.id = false := hfresh r (List.mem_cons_self r rest)
    have step : insertAll m (r :: rest) = insertAll (RespMap.insert m r.id r) rest := rfl
    rw [step, RespMap.insert_fresh m r.id r hfr, ih]
    · simp
    · intro r2 hr2
      rw [RespMap.containsKey_append_single]
      have hne : r.id ≠ r2.id := by
        intro he
        exact hnd.1 (he ▸ List.mem_map_of_mem (fun x => x.id) hr2)
      simp [hfresh r2 (List.mem_cons_of_mem r hr2), hne]
    · exact hnd.2

/-- The read loop, fed lines that decode to replies with fresh pairwise
distinct ids, stores them all and stops exactly when the map reaches the
target size, leaving the rest of the stream unread. -/
theorem readLoop_fills (target : Nat) (ls : List Line) (rs : List AnalysisResponse)
    (tail : List Line) (m : RespMap)
    (hdec : List.Forall₂ (fun l r => unmarshalLine l = Except.ok r) ls rs)
    (hfresh : ∀ r ∈ rs, m.containsKey r.id = false)
    (hnodup : (rs.map (fun r => r.id)).Nodup)
    (hsize : m.length + rs.length = target) :
    readLoop target m (ls ++ tail) = (Except.ok (insertAll m rs), tail) := by
  induction hdec generalizing m with
  | nil =>
    simp only [List.length_nil, Nat.add_zero] at hsize
    simpa [insertAll] using readLoop_stop target m tail (le_of_eq hsize.symm)
  | @cons l r ls2 rs2 hlr hrest ih =>
    have hnd := hnodup
    rw [List.map_cons, List.nodup_cons] at hnd
    have hlt : ¬ target ≤ m.length := by
      simp only [List.length_cons] at hsize
      omega
    rw [List.cons_append, readLoop_cons_ok target m l (ls2 ++ tail) r hlt hlr]
    have step : insertAll m (r :: rs2) = insertAll (RespMap.insert m r.id r) rs2 := rfl
    rw [step]
    have hfr : m.containsKey r.id = false := hfresh r (List.mem_cons_self r rs2)
    apply ih
    · intro r2 hr2
      rw [RespMap.insert_fresh m r.id r hfr, RespMap.containsKey_append_single]
      have hne : r.id ≠ r2.id := fun he =>
        hnd.1 (he ▸ List.mem_map_of_mem (fun x => x.id) hr2)
      simp [hfresh r2 (List.mem_cons_of_mem r hr2), hne]
    · exact hnd.2
    · rw [RespMap.insert_fresh m r.id r hfr]
      have hlen2 : (m ++ [(r.id, r)]).length = m.length + 1 := by simp
      rw [hlen2]
      simp only [List.length_cons] at hsize
      omega

/-- Looking a reply's id up in the association list built from a
duplicate-free reply list retrieves exactly that reply. -/
theorem lookup_reply_pairs (rs : List AnalysisResponse) (r : AnalysisResponse)
    (hmem : r ∈ rs) (hnodup : (rs.map (fun x => x.id)).Nodup) :
    List.lookup r.id (rs.map (fun x => (x.id, x))) = some r := by
  induction rs with
  | nil => cases hmem
  | cons r0 rest ih =>
    have hnd := hnodup
    rw [List.map_cons, List.nodup_cons] at hnd
    rcases List.mem_cons.mp hmem with h | h
    · subst h
      simp [List.lookup]
    · have hne : r.id ≠ r0.id := by
        intro he
        exact hnd.1 (he ▸ List.mem_map_of_mem (fun x => x.id) h)
      have hbe : (r.id == r0.id) = false := beq_eq_false_iff_ne.mpr hne
      rw [List.map_cons]
      simp only [List.lookup, hbe]
      exact ih h hnd.2

/-- C1: for a batch of requests with pairwise-distinct non-empty ids whose
matching replies all appear on the engine's output stream — formalised as
the stream starting with the batch's reply lines in an arbitrary order
(their ids a permutation of the request ids), followed by the rest of the
stream — `Analyze` returns exactly one response per request, in the order
the requests were given, the i-th response being the decoded reply whose
id equals the i-th request's id. -/
theorem analyze_returns_matching_replies (s : SessState) (ls tail : List Line)
    (rs : List AnalysisResponse)
    (hne : ∀ q ∈ s.reqs, q.id ≠ "")
    (hnodup : (s.reqs.map (fun q => q.id)).Nodup)
    (hstream : s.stdout = ls ++ tail)
    (hdec : List.Forall₂ (fun l r => unmarshalLine l = Except.ok r) ls rs)
    (hperm : List.Perm (rs.map (fun r => r.id)) (s.reqs.map (fun q => q.id))) :
    ∃ out, (Analyze s).1 = Except.ok out ∧ out.length = s.reqs.length ∧
      List.Forall₂ (fun q r => r.id = q.id ∧ r ∈ rs) s.reqs out := by
  have hrsnodup : (rs.map (fun r => r.id)).Nodup := hperm.nodup_iff.mpr hnodup
  have hlenrs : rs.length = s.reqs.length := by
    have h := hperm.length_eq
    simpa using h
  have hfill := readLoop_fills s.reqs.length ls rs tail []
    hdec (fun r _ => rfl) hrsnodup (by simpa using hlenrs)
  have hM : insertAll [] rs = rs.map (fun x => (x.id, x)) := by
    simpa using insertAll_eq_append rs [] (fun r _ => rfl) hrsnodup
  refine ⟨s.reqs.map (fun q => RespMap.find (insertAll [] rs) q.id), ?_, by simp, ?_⟩
  · unfold Analyze
    rw [hstream, hfill]
  · rw [hM]
    have key : ∀ q ∈ s.reqs,
        (RespMap.find (rs.map (fun x => (x.id, x))) q.id).id = q.id ∧
        RespMap.find (rs.map (fun x => (x.id, x))) q.id ∈ rs := by
      intro q hq
      have hidmem : q.id ∈ rs.map (fun r => r.id) :=
        hperm.mem_iff.mpr (List.mem_map_of_mem (fun q => q.id) hq)
      rcases List.mem_map.mp hidmem with ⟨r, hr, hrid⟩
      have hl : List.lookup q.id (rs.map (fun x => (x.id, x))) = some r := by
        rw [← hrid]
        exact lookup_reply_pairs rs r hr hrsnodup
      have hfind : RespMap.find (rs.map (fun x => (x.id, x))) q.id = r := by
        simp [RespMap.find, hl]
      rw [hfind]
      exact ⟨hrid, hr⟩
    rw [List.forall₂_map_right_iff]
    exact List.forall₂_same.mpr key

/-- The result `Analyze` hands back is exactly the read loop's outcome:
the per-request lookups on success, the loop's error otherwise. -/
theorem analyze_fst_eq (s : SessState) :
    (Analyze s).1 = Except.map (fun m => s.reqs.map (fun q => RespMap.find m q.id))
      (readLoop s.reqs.length [] s.stdout).1 := by
  unfold Analyze
  rcases hres : readLoop s.reqs.length [] s.stdout with ⟨res, rest⟩
  cases res <;> rfl

/-- C6: `Analyze` never delivers a partial result list: either the read
loop fails — stream exhausted before the map filled, or a line failed to
decode — and `Analyze` returns that error with no responses, or it
returns exactly one response per request. -/
theorem analyze_all_or_nothing (s : SessState) :
    (∃ e, (readLoop s.reqs.length [] s.stdout).1 = Except.error e ∧
          (Analyze s).1 = Except.error e) ∨
    (∃ out, (Analyze s).1 = Except.ok out ∧ out.length = s.reqs.length) := by
  rcases hres : (readLoop s.reqs.length [] s.stdout).1 with e | m
  · left
    exact ⟨e, rfl, by rw [analyze_fst_eq, hres]; rfl⟩
  · right
    exact ⟨s.reqs.map (fun q => RespMap.find m q.id),
           by rw [analyze_fst_eq, hres]; rfl, by simp⟩

/-- C10: `Analyze` never mutates the caller's request slice — the
requests field of the session state is untouched — and its only use of
the requests on the write side is serializing each one, in order, onto
the child's stdin. -/
theorem analyze_never_mutates_requests (s : SessState) :
    (Analyze s).2.reqs = s.reqs ∧
    (Analyze s).2.stdinBuf = s.stdinBuf ++ s.reqs.map marshalRequest := by
  unfold Analyze
  rcases hres : readLoop s.reqs.length [] s.stdout with ⟨res, rest⟩
  cases res <;> exact ⟨rfl, rfl⟩

/-- Fed only replies that all carry one and the same id, the response map
never grows past one entry, so a loop target of at least two exhausts the
stream and fails with a read error. -/
theorem readLoop_single_key (target : Nat) (k : String) (stdout : List Line) (m : RespMap)
    (htarget : 2 ≤ target)
    (hm : m = [] ∨ ∃ v, m = [(k, v)])
    (hlines : ∀ l ∈ stdout, ∃ r, unmarshalLine l = Except.ok r ∧ r.id = k) :
    (readLoop target m stdout).1 = Except.error AnalyzeErr.readErr := by
  induction stdout generalizing m with
  | nil =>
    have hlen : m.length ≤ 1 := by rcases hm with h | ⟨v, h⟩ <;> subst h <;> simp
    have hnot : ¬ target ≤ m.length := by omega
    rw [readLoop_nil target m hnot]
  | cons l rest ih =>
    rcases hlines l (List.mem_cons_self l rest) with ⟨r, hl, hid⟩
    have hlen : m.length ≤ 1 := by rcases hm with h | ⟨v, h⟩ <;> subst h <;> simp
    have hnot : ¬ target ≤ m.length := by omega
    rw [readLoop_cons_ok target m l rest r hnot hl]
    apply ih
    · rcases hm with h | ⟨v, h⟩
      · subst h
        right
        exact ⟨r, by simp [RespMap.insert, RespMap.containsKey, hid]⟩
      · subst h
        right
        refine ⟨r, ?_⟩
        rw [hid]
        simp [RespMap.insert, RespMap.containsKey]
    · intro l2 hl2
      exact hlines l2 (List.mem_cons_of_mem l hl2)

/-- C3 (counterexample): a batch of two requests that share the id `a`,
against an engine that answers each of the two submitted lines with a
reply for `a`, is not rejected with any duplicate-id error: both replies
land on the same map key, the loop keeps reading, and `Analyze` fails
with a read error at end of stream — not the synchronous rejection the
claim requires. -/
theorem duplicate_id_counterexample :
    (Analyze (baseState [reqWith "a", reqWith "a"] [replyLine "a", replyLine "a"])).1
      = Except.error AnalyzeErr.readErr := rfl

/-- C3 (amended): a batch of two requests sharing an id is not rejected
synchronously — no duplicate-id error exists in the code; both requests
are written to the engine, and because inbound replies are stored under
their id, a stream of replies all carrying the duplicated id can never
fill the response map to two entries, so `Analyze` reads past the end of
the stream and fails with a read error. -/
theorem duplicate_id_not_rejected (s : SessState) (q1 q2 : AnalysisRequest)
    (hreqs : s.reqs = [q1, q2]) (hdup : q2.id = q1.id)
    (hlines : ∀ l ∈ s.stdout, ∃ r, unmarshalLine l = Except.ok r ∧ r.id = q1.id) :
    (Analyze s).1 = Except.error AnalyzeErr.readErr := by
  have htar : s.reqs.length = 2 := by rw [hreqs]; rfl
  have h1 : (readLoop s.reqs.length [] s.stdout).1 = Except.error AnalyzeErr.readErr := by
    rw [htar]
    exact readLoop_single_key 2 q1.id s.stdout [] (le_refl 2) (Or.inl rfl) hlines
  rw [analyze_fst_eq, h1]
  rfl

/-- Witness for C3's amended theorem: the concrete duplicate batch and
all-same-id stream from the counterexample satisfy its hypotheses. -/
theorem duplicate_id_not_rejected_witness :
    (Analyze (baseState [reqWith "a", reqWith "a"] [replyLine "a"])).1
      = Except.error AnalyzeErr.readErr :=
  duplicate_id_not_rejected (baseState [reqWith "a", reqWith "a"] [replyLine "a"])
    (reqWith "a") (reqWith "a") rfl rfl
    (by
      intro l hl
      rcases List.mem_singleton.mp hl with rfl
      exact ⟨replyOf "a", rfl, rfl⟩)

/-- C2 (failing input): with the single request `a` and a stray reply
`c` arriving before the matching reply `a`, the stray is not discarded:
it is stored in the response map and counted toward the loop's
termination, so `Analyze` stops before ever reading the matching reply —
which is left unread on the stream — and delivers the zero-valued
response for `a` instead of its reply. -/
theorem stray_reply_displaces_batch :
    (Analyze (baseState [reqWith "a"] [replyLine "c", replyLine "a"])).1
        = Except.ok [zeroResponse] ∧
    (Analyze (baseState [reqWith "a"] [replyLine "c", replyLine "a"])).2.stdout
        = [replyLine "a"] :=
  ⟨rfl, rfl⟩

/-- C4 (failing input): a single malformed line ahead of the matching
reply makes `Analyze` abandon the whole batch with a decode error — the
in-flight request never receives the well-formed reply sitting right
behind the malformed line. -/
theorem malformed_line_aborts_batch :
    (Analyze (baseState [reqWith "a"] [Line.garbage "oops", replyLine "a"])).1
      = Except.error (AnalyzeErr.unmarshalFailed UnmarshalErr.malformed) := rfl

/-- One-step unfolding of `foldRespFields` on a cons cell (definitional;
stated because the equation generator balks at the nested matches). -/
theorem foldRespFields_cons (acc : AnalysisResponse) (k : String) (v : JsonVal)
    (rest : List (String × JsonVal)) :
    foldRespFields acc ((k, v) :: rest) =
      (if keyFold k "id" then
        match v with
        | JsonVal.str s => foldRespFields { acc with id := s } rest
        | JsonVal.null => foldRespFields acc rest
        | _ => Except.error UnmarshalErr.typeMismatch
      else if keyFold k "moveInfos" then
        match v with
        | JsonVal.arr xs =>
          match xs.mapM unmarshalMoveInfo with
          | Except.ok mis => foldRespFields { acc with moveInfos := mis } rest
          | Except.error e => Except.error e
        | JsonVal.null => foldRespFields { acc with moveInfos := [] } rest
        | _ => Except.error UnmarshalErr.typeMismatch
      else foldRespFields acc rest) := rfl

/-- Decoding the fields of a reply object never touches the accumulated
id when no object key matches the `id` field. -/
theorem foldRespFields_id_const (fs : List (String × JsonVal)) (acc r : AnalysisResponse)
    (hnoid : ∀ p ∈ fs, keyFold p.1 "id" = false)
    (hok : foldRespFields acc fs = Except.ok r) : r.id = acc.id := by
  induction fs generalizing acc with
  | nil =>
    have h : acc = r := Except.ok.inj hok
    rw [← h]
  | cons p rest ih =>
    obtain ⟨k, v⟩ := p
    have hk : keyFold k "id" = false := hnoid (k, v) (List.mem_cons_self _ _)
    have hrest : ∀ p2 ∈ rest, keyFold p2.1 "id" = false :=
      fun p2 hp2 => hnoid p2 (List.mem_cons_of_mem _ hp2)
    rw [foldRespFields_cons] at hok
    rw [if_neg (by simp [hk])] at hok
    by_cases hmi : keyFold k "moveInfos" = true
    · rw [if_pos hmi] at hok
      cases v with
      | null =>
        replace hok : foldRespFields { acc with moveInfos := [] } rest = Except.ok r := hok
        exact ih { acc with moveInfos := [] } hrest hok
      | arr xs =>
        replace hok :
            (match xs.mapM unmarshalMoveInfo with
             | Except.ok mis => foldRespFields { acc with moveInfos := mis } rest
             | Except.error e => Except.error e) = Except.ok r := hok
        cases hmm : xs.mapM unmarshalMoveInfo with
        | error e =>
          rw [hmm] at hok
          exact Except.noConfusion hok
        | ok mis =>
          rw [hmm] at hok
          replace hok : foldRespFields { acc with moveInfos := mis } rest = Except.ok r := hok
          exact ih { acc with moveInfos := mis } hrest hok
      | bool b => exact Except.noConfusion hok
      | num q => exact Except.noConfusion hok
      | str s2 => exact Except.noConfusion hok
      | obj fs2 => exact Except.noConfusion hok
    · rw [if_neg hmi] at hok
      exact ih _ hrest hok

/-- C5 (counterexample): the empty JSON object is a valid JSON line with
no usable id field, yet decoding it does not fail at all — it succeeds
with the zero response — so no missing-id error is ever produced. -/
theorem missing_id_counterexample :
    unmarshalLine (Line.json (JsonVal.obj [])) = Except.ok zeroResponse := rfl

/-- C5 (amended): decoding a reply line that is valid JSON but whose
object carries no key matching the `id` field does not fail with a
missing-id error; whenever it succeeds it yields a response whose id is
the empty string, the Go zero value (only malformed JSON or a shape
mismatch makes decoding fail, and a missing-id error does not exist). -/
theorem missing_id_decodes_to_empty (fs : List (String × JsonVal)) (r : AnalysisResponse)
    (hnoid : ∀ p ∈ fs, keyFold p.1 "id" = false)
    (hok : unmarshalResponse (JsonVal.obj fs) = Except.ok r) :
    r.id = "" := by
  have h := foldRespFields_id_const fs zeroResponse r hnoid
    (by simpa [unmarshalResponse] using hok)
  simpa [zeroResponse] using h

/-- Witness for C5's amended theorem at a concrete id-free object. -/
theorem missing_id_decodes_to_empty_witness : zeroResponse.id = "" :=
  missing_id_decodes_to_empty [("rules", JsonVal.str "x")] zeroResponse (by decide) rfl

/-- `Close`'s result is the wait's result: since the `closeOnce`-wrapped
`stdin.Close()` never errors, the match in `Close` always reaches
`cmd.Wait` (definitional). -/
theorem close_fst_eq (t : SessState) :
    (Close t).1 = (waitOp ((stdinCloseOp t).2)).1 := rfl

/-- `Close`'s final state is the wait's final state, for the same
reason. -/
theorem close_snd_eq (t : SessState) :
    (Close t).2 = (waitOp ((stdinCloseOp t).2)).2 := rfl

/-- `cmd.Wait` leaves the wait-called flag set afterwards. -/
theorem waitOp_waitCalled (t : SessState) :
    (waitOp t).2.waitCalled = true := by
  unfold waitOp
  by_cases hwc : t.waitCalled = true <;> simp [hwc]

/-- After any `Close`, `cmd.Wait` has been called. -/
theorem close_leaves_wait_called (s : SessState) :
    (Close s).2.waitCalled = true := by
  rw [close_snd_eq]
  exact waitOp_waitCalled _

/-- C8 (counterexample): on a fresh session the first `Close` succeeds,
but a second `Close` returns an error, not the renewed success the claim
requires: the `closeOnce` wrapper makes the repeated `stdin.Close()`
return its cached `nil`, so `Close` proceeds to call `cmd.Wait` again,
which fails because `Wait` was already called. -/
theorem close_not_idempotent :
    (Close openSession).1 = Except.ok () ∧
    (Close (Close openSession).2).1 = Except.error CloseErr.waitAlreadyCalled :=
  ⟨rfl, rfl⟩

/-- C8 (amended): `Close` is not idempotent — on a second call the
`closeOnce`-wrapped `stdin.Close()` returns its cached `nil`, so `Close`
reaches `cmd.Wait` a second time and always returns the
wait-already-called error instead of succeeding again. -/
theorem close_second_call_fails (s : SessState) :
    (Close (Close s).2).1 = Except.error CloseErr.waitAlreadyCalled := by
  have h := close_leaves_wait_called s
  rw [close_fst_eq]
  unfold waitOp stdinCloseOp
  simp [h]

/-- C9: `Close` first closes the write side of the child's stdin and
only then waits for process exit — the event trace gains `closeStdin`
then `waitProcess`, and the wait carries no deadline — and `Close`
returns exactly the wait's result.  (The source's branch returning an
error when closing stdin fails exists but can never fire: the
`closeOnce` wrapper around the stdin pipe never reports an error, so
the wait's result is always what `Close` returns.) -/
theorem close_terminate_order (s : SessState) :
    (Close s).2.events = s.events ++ [CloseEvent.closeStdin, CloseEvent.waitProcess] ∧
    (Close s).1 = (waitOp ((stdinCloseOp s).2)).1 := by
  constructor
  · rw [close_snd_eq]
    unfold waitOp stdinCloseOp
    by_cases hwc : s.waitCalled = true <;> simp [hwc]
  · exact close_fst_eq s

/-- Witness for C1: two requests `a`,`b` with the engine replying in the
reverse order; each request still receives its own reply, in request
order. -/
theorem analyze_returns_matching_replies_witness :
    ∃ out,
      (Analyze (baseState [reqWith "a", reqWith "b"] [replyLine "b", replyLine "a"])).1
        = Except.ok out ∧
      out.length = (baseState [reqWith "a", reqWith "b"]
        [replyLine "b", replyLine "a"]).reqs.length ∧
      List.Forall₂ (fun q r => r.id = q.id ∧ r ∈ [replyOf "b", replyOf "a"])
        (baseState [reqWith "a", reqWith "b"] [replyLine "b", replyLine "a"]).reqs out :=
  analyze_returns_matching_replies
    (baseState [reqWith "a", reqWith "b"] [replyLine "b", replyLine "a"])
    [replyLine "b", replyLine "a"] [] [replyOf "b", replyOf "a"]
    (by decide) (by decide) rfl
    (List.Forall₂.cons rfl (List.Forall₂.cons rfl List.Forall₂.nil))
    (by decide)

end Katago
